import Mathlib

/-!
# Verification of the attendance-tracker core against its specification

Shallow embedding of the identity-resolution, deduplication, aggregation and
flagging logic of the `databaseattendacetracker` Apps Script project.  Sheet
cells are modelled as plain Lean values: a JS value that may hold a number, a
string, or something else is an inductive `JsVal`; an empty cell / falsy string
is `""`; a possibly-missing date cell is an `Option`.  Dates are modelled at
calendar-day granularity (year / 0-based month / day, compared
lexicographically, which agrees with the millisecond order of the source's
`Date` values at day precision).

String primitives (`trim`, `toLowerCase`, `toUpperCase`, digit tests) are
defined here by structural recursion on the character list so that every
definition evaluates inside the kernel on concrete inputs.
-/

/-- Characters removed by `String.prototype.trim`. -/
def trimChars (l : List Char) : List Char :=
  ((l.dropWhile Char.isWhitespace).reverse.dropWhile Char.isWhitespace).reverse

/-- JS `s.trim()`. -/
def jsTrim (s : String) : String := String.mk (trimChars s.data)

/-- JS `s.toLowerCase()` (ASCII, which covers every comparison the scripts make). -/
def jsLower (s : String) : String := String.mk (s.data.map Char.toLower)

/-- JS `s.toUpperCase()` (ASCII). -/
def jsUpper (s : String) : String := String.mk (s.data.map Char.toUpper)

/-- Value of a pure digit string under `parseInt(s, 10)`. -/
def digitsVal (l : List Char) : Nat :=
  l.foldl (fun n c => n * 10 + (c.toNat - '0'.toNat)) 0

/-- A raw spreadsheet-cell value as seen by the scripts: an integral number, a
string, or any other JS value (`Date`, boolean, `null`, …). -/
inductive JsVal where
  | int (n : Int)
  | str (s : String)
  | other
deriving DecidableEq, Repr

/-- Embedding of `extractNumericBel` (part_001 lines 8–33).  Accepts a
non-negative integral number directly; accepts a string whose trimmed form is a
non-empty pure digit sequence (the `/^\d+$/` test; `parseInt` of such a string
is its digit value, necessarily ≥ 0, so the final non-negativity check of the
source always passes on this branch); everything else — negative numbers,
strings with any non-digit character after trimming, empty or whitespace-only
strings, and non-number non-string values — yields `none` (JS `null`). -/
def extractNumericBel : JsVal → Option Nat
  | .int n => if 0 ≤ n then some n.toNat else none
  | .str s =>
    let numStr := (jsTrim s).data
    if numStr = [] then none
    else if ¬ (numStr.all Char.isDigit) then none
    else some (digitsVal numStr)
  | .other => none

/-- **C7**: the numeric ID extractor returns the integer for a non-negative
integral number and for a string whose trimmed form is a non-empty pure digit
sequence (so `"045"` yields `45`); it returns Invalid (`none`) for negative
numbers, for strings whose trimmed form contains any non-digit character (so
`"BEL123"` is Invalid), and for empty or whitespace-only strings. -/
theorem extractNumericBel_spec :
    (∀ n : Int, 0 ≤ n → extractNumericBel (.int n) = some n.toNat) ∧
    (∀ n : Int, n < 0 → extractNumericBel (.int n) = none) ∧
    (∀ s : String, (jsTrim s).data ≠ [] → (jsTrim s).data.all Char.isDigit →
      extractNumericBel (.str s) = some (digitsVal (jsTrim s).data)) ∧
    (∀ s : String, (∃ c ∈ (jsTrim s).data, ¬ c.isDigit) →
      extractNumericBel (.str s) = none) ∧
    (∀ s : String, (jsTrim s).data = [] → extractNumericBel (.str s) = none) := by
  refine ⟨?_, ?_, ?_, ?_, ?_⟩
  · intro n h
    simp [extractNumericBel, h]
  · intro n h
    simp [extractNumericBel, not_le.mpr h]
  · intro s h1 h2
    simp [extractNumericBel, h1, h2]
  · intro s h
    obtain ⟨c, hc, hcd⟩ := h
    have hne : (jsTrim s).data ≠ [] := by
      intro he
      rw [he] at hc
      exact absurd hc (List.not_mem_nil c)
    have hall : ¬ ((jsTrim s).data.all Char.isDigit = true) := by
      rw [List.all_eq_true]
      intro hx
      exact hcd (hx c hc)
    simp [extractNumericBel, hne, hall]
  · intro s h
    simp [extractNumericBel, h]

/-- Witness for **C7**: concrete runs of the extractor on `"BEL123"`, `"045"`
and `-3`, obtained from `extractNumericBel_spec`. -/
theorem extractNumericBel_spec_witness :
    extractNumericBel (.str "BEL123") = none ∧
    extractNumericBel (.str "045") = some 45 ∧
    extractNumericBel (.int (-3)) = none := by
  refine ⟨?_, ?_, ?_⟩
  · exact extractNumericBel_spec.2.2.2.1 "BEL123" ⟨'B', by decide, by decide⟩
  · rw [extractNumericBel_spec.2.2.1 "045" (by decide) (by decide)]
    decide
  · exact extractNumericBel_spec.2.1 (-3) (by decide)

/-! ## NeedFollowUp.js — first-time and follow-up flags -/

/-- `String(name).trim().toUpperCase()`, the name standardization of
`processEventAttendanceForFollowUpByName` (NeedFollowUp.js lines 40, 61, 84). -/
def stdName (s : String) : String := jsUpper (jsTrim s)

/-- A row of the `Event Attendance` / `Sunday Service` sheets as read by
NeedFollowUp.js: the name cell (`""` when blank) and the date cell as epoch
milliseconds when it holds a `Date`, `none` otherwise (the `instanceof Date`
test). -/
structure NRow where
  name : String
  date : Option Int
deriving DecidableEq, Repr

/-- The occurrence count `nameCounts.get(k)` built in NeedFollowUp.js lines
36–45: the number of `Event Attendance` rows whose truthy name standardizes to
`k`. -/
def countOf (ea : List NRow) (k : String) : Nat :=
  ea.countP (fun r => decide (r.name ≠ "" ∧ stdName r.name = k))

/-- All attendance dates collected for key `k` from the two sheets
(NeedFollowUp.js lines 50–68), Sunday Service first as in `dataSources`. -/
def datesFor (ssRows ea : List NRow) (k : String) : List Int :=
  (ssRows ++ ea).filterMap
    (fun r => if r.name ≠ "" ∧ stdName r.name = k ∧ k ≠ "" then r.date else none)

/-- Last element of the ascending sort of the date list, i.e. its maximum. -/
def maxDate (l : List Int) : Option Int :=
  l.foldl (fun acc t => match acc with
    | none => some t
    | some m => some (max m t)) none

/-- The first-time flag of one row (NeedFollowUp.js lines 80–89): `"YES"`
exactly when the row has a truthy name whose standardization is truthy and
whose total occurrence count in the `Event Attendance` sheet is 1. -/
def firstTimeFlag (ea : List NRow) (r : NRow) : String :=
  if r.name ≠ "" ∧ stdName r.name ≠ "" ∧ countOf ea (stdName r.name) = 1
  then "YES" else ""

/-- The need-follow-up flag of one row (NeedFollowUp.js lines 91–99): `"YES"`
when the person's most recent attendance across both sheets is at least 30 days
(in milliseconds) before `today`. -/
def needFollowUpFlag (ssRows ea : List NRow) (today : Int) (r : NRow) : String :=
  if r.name ≠ "" ∧ stdName r.name ≠ "" then
    match maxDate (datesFor ssRows ea (stdName r.name)) with
    | some latest => if today - latest ≥ 30 * 86400000 then "YES" else ""
    | none => ""
  else ""

theorem stdName_empty : stdName "" = "" := rfl

theorem stdName_ne_empty_name {s : String} (h : stdName s ≠ "") : s ≠ "" := by
  intro he
  rw [he] at h
  exact h stdName_empty

theorem two_le_countP {α : Type} (p : α → Bool) :
    ∀ (l : List α) (i j : Nat) (hij : i < j) (hj : j < l.length),
      p (l.get ⟨i, Nat.lt_trans hij hj⟩) → p (l.get ⟨j, hj⟩) → 2 ≤ l.countP p := by
  intro l
  induction l with
  | nil => intro i j hij hj; exact absurd hj (Nat.not_lt_zero j)
  | cons a t ih =>
    intro i j hij hj hpi hpj
    match i, j with
    | 0, j + 1 =>
      have hpa : p a := hpi
      have hmem : t.get ⟨j, Nat.lt_of_succ_lt_succ hj⟩ ∈ t := List.get_mem t _ _
      have h1 : 0 < t.countP p := List.countP_pos_iff.mpr ⟨_, hmem, hpj⟩
      rw [List.countP_cons, if_pos hpa]
      omega
    | i + 1, j + 1 =>
      have := ih i j (Nat.lt_of_succ_lt_succ hij) (Nat.lt_of_succ_lt_succ hj) hpi hpj
      rw [List.countP_cons]
      omega

/-- **C8**: a row of the Event Attendance ledger is flagged first-time
(`"YES"`) exactly when the total occurrence count of that row's normalized name
across the whole ledger equals 1; in particular two rows carrying the same
normalized name (e.g. a name occurring exactly twice) are both flagged not
first-time, even though one of them is chronologically first. -/
theorem firstTimeFlag_spec :
    (∀ (ea : List NRow) (r : NRow), r ∈ ea → stdName r.name ≠ "" →
      (firstTimeFlag ea r = "YES" ↔ countOf ea (stdName r.name) = 1)) ∧
    (∀ (ea : List NRow) (i j : Nat) (hij : i < j) (hj : j < ea.length),
      stdName (ea.get ⟨i, Nat.lt_trans hij hj⟩).name ≠ "" →
      stdName (ea.get ⟨i, Nat.lt_trans hij hj⟩).name
        = stdName (ea.get ⟨j, hj⟩).name →
      firstTimeFlag ea (ea.get ⟨i, Nat.lt_trans hij hj⟩) ≠ "YES" ∧
      firstTimeFlag ea (ea.get ⟨j, hj⟩) ≠ "YES") := by
  constructor
  · intro ea r _ h
    have hn : r.name ≠ "" := stdName_ne_empty_name h
    by_cases hc : countOf ea (stdName r.name) = 1
    · simp [firstTimeFlag, hn, h, hc]
    · simp [firstTimeFlag, hn, h, hc]
  · intro ea i j hij hj hk heq
    set ri := ea.get ⟨i, Nat.lt_trans hij hj⟩ with hri
    set rj := ea.get ⟨j, hj⟩ with hrj
    set k := stdName ri.name with hkdef
    have hkj : stdName rj.name = k := heq.symm
    have hni : ri.name ≠ "" := stdName_ne_empty_name hk
    have hnj : rj.name ≠ "" := stdName_ne_empty_name (by rw [hkj]; exact hk)
    have h2 : 2 ≤ countOf ea k := by
      apply two_le_countP _ ea i j hij hj
      · exact decide_eq_true_eq.mpr ⟨hni, rfl⟩
      · exact decide_eq_true_eq.mpr ⟨hnj, hkj⟩
    have hc : countOf ea k ≠ 1 := by omega
    constructor
    · simp [firstTimeFlag, hni, hk, ← hkdef, hc]
    · simp [firstTimeFlag, hnj, hkj, hk, hc]

/-- Witness for **C8**: in a concrete ledger where `JANE DOE` occurs twice
(rows 0 and 1) and `SOLO` once (row 2), both Jane rows are not first-time and
the Solo row is first-time. -/
theorem firstTimeFlag_spec_witness :
    firstTimeFlag
        [⟨"Jane Doe", some 0⟩, ⟨" JANE doe ", some 10⟩, ⟨"Solo", some 0⟩]
        (⟨"Jane Doe", some 0⟩ : NRow) ≠ "YES" ∧
    firstTimeFlag
        [⟨"Jane Doe", some 0⟩, ⟨" JANE doe ", some 10⟩, ⟨"Solo", some 0⟩]
        (⟨" JANE doe ", some 10⟩ : NRow) ≠ "YES" ∧
    firstTimeFlag
        [⟨"Jane Doe", some 0⟩, ⟨" JANE doe ", some 10⟩, ⟨"Solo", some 0⟩]
        (⟨"Solo", some 0⟩ : NRow) = "YES" := by
  have h2 := firstTimeFlag_spec.2
      [⟨"Jane Doe", some 0⟩, ⟨" JANE doe ", some 10⟩, ⟨"Solo", some 0⟩]
      0 1 (by decide) (by decide) (by decide) (by decide)
  refine ⟨h2.1, h2.2, ?_⟩
  exact (firstTimeFlag_spec.1
      [⟨"Jane Doe", some 0⟩, ⟨" JANE doe ", some 10⟩, ⟨"Solo", some 0⟩]
      ⟨"Solo", some 0⟩ (by decide) (by decide)).mpr (by decide)

/-! ## PullSSAttendance.js — transfer with key-based deduplication

A `Service Attendance` / `Sunday Service` sheet row.  Text cells are `String`
(`""` = blank/falsy); the timestamp cell (column E) is `some t` with `t` the
value of `new Date(cell).getTime()` when the cell is truthy, `none` when blank
(an unparseable truthy cell, whose `getTime()` is `NaN`, behaves in the source
as one fixed extra time value, so it is covered by the `Int` model). -/
structure Row9 where
  personalId : String
  fullName : String
  firstName : String
  lastName : String
  timestamp : Option Int
  firstTime : String
  email : String
  notes : String := ""
  dateAdded : Option Int := none
deriving DecidableEq, Repr

/-- The dedup key `` `${String(fullName).trim().toLowerCase()}_${new
Date(timestamp).getTime()}` `` (PullSSAttendance.js lines 35, 68, 229, 238). -/
def entryKey (fullName : String) (t : Int) : String × Int :=
  (jsLower (jsTrim fullName), t)

/-- Key of a ledger row, when both its name and timestamp cells are truthy
(PullSSAttendance.js lines 32–41). -/
def rowKey (r : Row9) : Option (String × Int) :=
  if r.fullName ≠ "" then
    match r.timestamp with
    | some t => some (entryKey r.fullName t)
    | none => none
  else none

/-- The existing-keys set built once per run from the ledger, skipping the
header row (index 0). -/
def existingKeys (ledger : List Row9) : List (String × Int) :=
  (ledger.drop 1).filterMap rowKey

/-- The 9-column row appended for an accepted candidate
(PullSSAttendance.js lines 74–84). -/
def mkNewEntry (r : Row9) (t : Int) : Row9 :=
  { personalId := r.personalId, fullName := r.fullName,
    firstName := r.firstName, lastName := r.lastName, timestamp := some t,
    firstTime := if r.firstTime = "" then "No" else r.firstTime,
    email := r.email, notes := "", dateAdded := some t }

/-- The candidate loop of `pullSundayServiceToServiceAttendance`
(lines 47–89): rows missing personal id, full name or timestamp are skipped;
rows whose key is already in the existing set are skipped; the rest become new
entries.  The existing set is never extended during the loop. -/
def collectNew (existing : List (String × Int)) : List Row9 → List Row9
  | [] => []
  | r :: rest =>
    if r.personalId ≠ "" ∧ r.fullName ≠ "" then
      match r.timestamp with
      | some t =>
        if entryKey r.fullName t ∈ existing then collectNew existing rest
        else mkNewEntry r t :: collectNew existing rest
      | none => collectNew existing rest
    else collectNew existing rest

/-- Keys of the valid candidates of a batch, in order. -/
def candidateKeys : List Row9 → List (String × Int)
  | [] => []
  | r :: rest =>
    if r.personalId ≠ "" ∧ r.fullName ≠ "" then
      match r.timestamp with
      | some t => entryKey r.fullName t :: candidateKeys rest
      | none => candidateKeys rest
    else candidateKeys rest

/-- Embedding of `pullSundayServiceToServiceAttendance`
(PullSSAttendance.js lines 6–121): returns the ledger after the run and the
list of rows inserted.  The source returns without writing when the Sunday
sheet has at most a header (line 20); new rows are appended after the last
ledger row, or from the very first sheet row when the ledger sheet is
completely empty (line 95). -/
def pullSundayServiceToServiceAttendance (ledger sundayData : List Row9) :
    List Row9 × List Row9 :=
  if sundayData.length ≤ 1 then (ledger, [])
  else
    let newEntries := collectNew (existingKeys ledger) (sundayData.drop 1)
    if newEntries = [] then (ledger, [])
    else (if ledger = [] then newEntries else ledger ++ newEntries, newEntries)

theorem collectNew_filterMap_rowKey (ex : List (String × Int)) :
    ∀ rows : List Row9,
      (collectNew ex rows).filterMap rowKey
        = (candidateKeys rows).filter (fun k => decide (k ∉ ex)) := by
  intro rows
  induction rows with
  | nil => rfl
  | cons r rest ih =>
    by_cases hv : r.personalId ≠ "" ∧ r.fullName ≠ ""
    · cases ht : r.timestamp with
      | none => simp [collectNew, candidateKeys, hv, ht, ih]
      | some t =>
        by_cases hk : entryKey r.fullName t ∈ ex
        · simp [collectNew, candidateKeys, hv, ht, hk, ih]
        · have hrk : rowKey (mkNewEntry r t) = some (entryKey r.fullName t) := by
            simp [rowKey, mkNewEntry, hv.2]
          simp [collectNew, candidateKeys, hv, ht, hk, ih, hrk]
    · simp [collectNew, candidateKeys, hv, ih]

theorem collectNew_eq_nil (ex : List (String × Int)) :
    ∀ rows : List Row9, (∀ k ∈ candidateKeys rows, k ∈ ex) →
      collectNew ex rows = [] := by
  intro rows
  induction rows with
  | nil => intro _; rfl
  | cons r rest ih =>
    intro h
    by_cases hv : r.personalId ≠ "" ∧ r.fullName ≠ ""
    · cases ht : r.timestamp with
      | none =>
        simp only [collectNew, if_pos hv, ht]
        exact ih (fun k hk => h k (by simp [candidateKeys, hv, ht, hk]))
      | some t =>
        have hkey : entryKey r.fullName t ∈ ex :=
          h _ (by simp [candidateKeys, hv, ht])
        simp only [collectNew, if_pos hv, ht, if_pos hkey]
        exact ih (fun k hk => h k (by simp [candidateKeys, hv, ht, hk]))
    · simp only [collectNew, if_neg hv]
      exact ih (fun k hk => h k (by simp [candidateKeys, hv, hk]))

theorem existingKeys_append (L new : List Row9) (h : L ≠ []) :
    existingKeys (L ++ new) = existingKeys L ++ new.filterMap rowKey := by
  cases L with
  | nil => exact absurd rfl h
  | cons a L' => simp [existingKeys, List.filterMap_append]

theorem pull_run_split (L batch : List Row9) (hlen : ¬ batch.length ≤ 1) :
    pullSundayServiceToServiceAttendance L batch =
      (if collectNew (existingKeys L) (batch.drop 1) = [] then (L, [])
       else (if L = []
             then collectNew (existingKeys L) (batch.drop 1)
             else L ++ collectNew (existingKeys L) (batch.drop 1),
             collectNew (existingKeys L) (batch.drop 1))) := by
  simp [pullSundayServiceToServiceAttendance, hlen]

/-- **C2 (amended)**: a transfer run never appends a row whose dedup key is
already present in the pre-run ledger, so when the pre-run ledger (below its
header row) has pairwise-distinct keys AND the batch's valid candidate rows
have pairwise-distinct keys, the post-run ledger still has at most one event
row per key.  (As stated the claim is false: the existing-keys set is not
extended during the loop, so a batch containing two source rows with the same
key is appended twice — see the counterexample.) -/
theorem pull_dedup_nodup (L batch : List Row9) (hL : L ≠ [])
    (h1 : (existingKeys L).Nodup)
    (h2 : (candidateKeys (batch.drop 1)).Nodup) :
    (existingKeys (pullSundayServiceToServiceAttendance L batch).1).Nodup := by
  by_cases hlen : batch.length ≤ 1
  · simpa [pullSundayServiceToServiceAttendance, hlen] using h1
  · rw [pull_run_split L batch hlen]
    by_cases hn : collectNew (existingKeys L) (batch.drop 1) = []
    · rw [if_pos hn]
      exact h1
    · rw [if_neg hn, if_neg hL]
      rw [existingKeys_append L _ hL, List.nodup_append]
      refine ⟨h1, ?_, ?_⟩
      · rw [collectNew_filterMap_rowKey]
        exact h2.filter _
      · intro k hkL hknew
        rw [collectNew_filterMap_rowKey] at hknew
        have := (List.mem_filter.mp hknew).2
        rw [decide_eq_true_eq] at this
        exact this hkL

/-- Witness for **C2**: a non-duplicate batch against a concrete one-header
ledger keeps the ledger duplicate-free. -/
theorem pull_dedup_nodup_witness :
    (existingKeys (pullSundayServiceToServiceAttendance
        [⟨"", "", "", "", none, "", "", "", none⟩]
        [⟨"", "", "", "", none, "", "", "", none⟩,
         ⟨"7", "Ann", "A", "N", some 100, "", "", "", none⟩]).1).Nodup :=
  pull_dedup_nodup
    [⟨"", "", "", "", none, "", "", "", none⟩]
    [⟨"", "", "", "", none, "", "", "", none⟩,
     ⟨"7", "Ann", "A", "N", some 100, "", "", "", none⟩]
    (by decide) (by decide) (by decide)

/-- Counterexample for **C2** as stated: a batch containing the same valid row
twice is appended twice, so after the run the ledger holds two event rows with
the dedup key `("ann", 100)`. -/
theorem pull_dedup_counterexample :
    ((existingKeys (pullSundayServiceToServiceAttendance
        [⟨"", "", "", "", none, "", "", "", none⟩]
        [⟨"", "", "", "", none, "", "", "", none⟩,
         ⟨"7", "Ann", "A", "N", some 100, "", "", "", none⟩,
         ⟨"7", "Ann", "A", "N", some 100, "", "", "", none⟩]).1).count
      (entryKey "Ann" 100)) = 2 := by decide

/-- **C3 (amended)**: provided the initial ledger is non-empty (its sheet has
the usual header row), submitting the same batch a second time after a first
run inserts zero new rows — every event accepted on the first attempt is found
in the existing-keys set on the second attempt and skipped.  (As stated, over
*every* ledger state, the claim fails for the completely empty ledger: the
first transferred row then occupies the header slot, is skipped when the keys
are rebuilt, and is re-inserted — see the counterexample.) -/
theorem pull_resubmit_zero (L batch : List Row9) (hL : L ≠ []) :
    (pullSundayServiceToServiceAttendance
        (pullSundayServiceToServiceAttendance L batch).1 batch).2 = [] := by
  by_cases hlen : batch.length ≤ 1
  · simp [pullSundayServiceToServiceAttendance, hlen]
  · rw [pull_run_split L batch hlen]
    by_cases hn : collectNew (existingKeys L) (batch.drop 1) = []
    · rw [if_pos hn]
      rw [pull_run_split L batch hlen, if_pos hn]
    · rw [if_neg hn, if_neg hL]
      rw [pull_run_split _ batch hlen]
      have hall : ∀ k ∈ candidateKeys (batch.drop 1),
          k ∈ existingKeys (L ++ collectNew (existingKeys L) (batch.drop 1)) := by
        intro k hk
        rw [existingKeys_append L _ hL]
        by_cases hke : k ∈ existingKeys L
        · exact List.mem_append_left _ hke
        · apply List.mem_append_right
          rw [collectNew_filterMap_rowKey]
          exact List.mem_filter.mpr ⟨hk, decide_eq_true_eq.mpr hke⟩
      rw [collectNew_eq_nil _ _ hall]
      rfl

/-- Witness for **C3**: a concrete non-empty ledger and batch; the second run
of the same batch inserts nothing. -/
theorem pull_resubmit_zero_witness :
    (pullSundayServiceToServiceAttendance
        (pullSundayServiceToServiceAttendance
          [⟨"", "", "", "", none, "", "", "", none⟩]
          [⟨"", "", "", "", none, "", "", "", none⟩,
           ⟨"7", "Ann", "A", "N", some 100, "", "", "", none⟩]).1
        [⟨"", "", "", "", none, "", "", "", none⟩,
         ⟨"7", "Ann", "A", "N", some 100, "", "", "", none⟩]).2 = [] :=
  pull_resubmit_zero
    [⟨"", "", "", "", none, "", "", "", none⟩]
    [⟨"", "", "", "", none, "", "", "", none⟩,
     ⟨"7", "Ann", "A", "N", some 100, "", "", "", none⟩]
    (by decide)

/-- Counterexample for **C3** as stated: starting from the completely empty
ledger, the row accepted on the first run lands in the sheet's first row,
which the key-building loop treats as a header, so the identical second
submission re-inserts it instead of inserting zero rows. -/
theorem pull_resubmit_counterexample :
    (pullSundayServiceToServiceAttendance
        (pullSundayServiceToServiceAttendance
          []
          [⟨"", "", "", "", none, "", "", "", none⟩,
           ⟨"7", "Ann", "A", "N", some 100, "", "", "", none⟩]).1
        [⟨"", "", "", "", none, "", "", "", none⟩,
         ⟨"7", "Ann", "A", "N", some 100, "", "", "", none⟩]).2
      = [⟨"7", "Ann", "A", "N", some 100, "No", "", "", some 100⟩] := by decide

/-! ## Calendar dates

Day-granularity model of the JS `Date` values the stats functions compare:
year, 0-based month (as `getMonth()`), day of month.  Lexicographic comparison
agrees with the millisecond order of date values at this granularity. -/
structure SDate where
  year : Int
  month : Nat
  day : Nat
deriving DecidableEq, Repr

/-- JS `d1 < d2` on dates, at day granularity. -/
def SDate.ltb (a b : SDate) : Bool :=
  decide (a.year < b.year) ||
    (decide (a.year = b.year) &&
      (decide (a.month < b.month) ||
        (decide (a.month = b.month) && decide (a.day < b.day))))

/-- JS `d1 <= d2` on dates, at day granularity. -/
def SDate.leb (a b : SDate) : Bool := SDate.ltb a b || decide (a = b)

/-- JS `d.setMonth(d.getMonth() - k)` (month arithmetic with year borrow; the
source only uses k = 3 and k = 12). -/
def subMonths (d : SDate) (k : Nat) : SDate :=
  let m : Int := (d.month : Int) - (k : Int)
  ⟨d.year + Int.fdiv m 12, (Int.fmod m 12).toNat, d.day⟩

/-- JS `getDay()` (0 = Sunday) via Zeller's congruence. -/
def dayOfWeek (d : SDate) : Nat :=
  let m0 : Int := (d.month : Int) + 1
  let q : Int := d.day
  let m : Int := if m0 ≤ 2 then m0 + 12 else m0
  let yy : Int := if m0 ≤ 2 then d.year - 1 else d.year
  let K : Int := Int.fmod yy 100
  let J : Int := Int.fdiv yy 100
  let h : Int := Int.fmod (q + (13 * (m + 1)) / 5 + K + K / 4 + J / 4 + 5 * J) 7
  (Int.fmod (h + 6) 7).toNat

/-- The `days` array of `calculateServiceStats` (part_000 line 1466). -/
def dayName : Nat → String
  | 0 => "Sunday"
  | 1 => "Monday"
  | 2 => "Tuesday"
  | 3 => "Wednesday"
  | 4 => "Thursday"
  | 5 => "Friday"
  | _ => "Saturday"

/-! ## part_000 `calculateServiceStats` — per-person service statistics -/

/-- A `Service Attendance` row as read by `calculateServiceStats`
(columns A–E and H; part_000 lines 1424–1425).  `serviceDate` is
`getDateValue(row[4])`: `some d` for a parseable date, `none` otherwise. -/
structure SvcRow where
  personId : String
  fullName : String
  firstName : String
  lastName : String
  serviceDate : Option SDate
  notes : String := ""
deriving DecidableEq, Repr

/-- The per-person accumulator object of `calculateServiceStats`
(part_000 lines 1439–1451). -/
structure PersonStats where
  personId : String
  fullName : String
  firstName : String
  lastName : String
  servicesLast3Months : Nat
  servicesThisMonth : Nat
  volunteerCount : Nat
  lastAttendedDate : Option SDate
  lastServiceName : String
  totalServicesAttended : Nat
  activityLevel : String
deriving DecidableEq, Repr

/-- Fresh stats entry (part_000 lines 1438–1452). -/
def initStats (personId fullName : String) (r : SvcRow) : PersonStats :=
  { personId := personId, fullName := fullName, firstName := r.firstName,
    lastName := r.lastName, servicesLast3Months := 0, servicesThisMonth := 0,
    volunteerCount := 0, lastAttendedDate := none, lastServiceName := "N/A",
    totalServicesAttended := 0, activityLevel := "Inactive" }

/-- Assoc-list lookup, the `Map.get` of the scripts. -/
def alGet {α : Type} : List (String × α) → String → Option α
  | [], _ => none
  | (k', v) :: rest, k => if k' = k then some v else alGet rest k

/-- Assoc-list insert/replace, the `Map.set` of the scripts. -/
def alSet {α : Type} : List (String × α) → String → α → List (String × α)
  | [], k, v => [(k, v)]
  | (k', v') :: rest, k, v =>
    if k' = k then (k', v) :: rest else (k', v') :: alSet rest k v

/-- Whether `pre` is a prefix of a character list. -/
def isPrefixChars : List Char → List Char → Bool
  | [], _ => true
  | _ :: _, [] => false
  | c :: cs, d :: ds => c = d && isPrefixChars cs ds

/-- JS `String.prototype.includes`: `sub` occurs contiguously in `l`. -/
def containsSub (sub : List Char) : List Char → Bool
  | [] => decide (sub = [])
  | c :: rest => isPrefixChars sub (c :: rest) || containsSub sub rest

/-- One accumulation step of `calculateServiceStats` (part_000 lines
1454–1478): bump totals, volunteer count (notes contain "volunteer"
case-insensitively), most recent date and service name, this-month count, and
the rolling last-3-months count (`serviceDate >= threeMonthsAgo &&
serviceDate <= now`). -/
def svcAccum (now threeMonthsAgo : SDate) (st : PersonStats) (r : SvcRow)
    (d : SDate) : PersonStats :=
  let st1 := { st with totalServicesAttended := st.totalServicesAttended + 1 }
  let st2 := if containsSub "volunteer".data (jsLower r.notes).data
             then { st1 with volunteerCount := st1.volunteerCount + 1 } else st1
  let st3 := if (match st2.lastAttendedDate with
                 | none => true
                 | some prev => SDate.ltb prev d)
             then { st2 with lastAttendedDate := some d,
                             lastServiceName := dayName (dayOfWeek d) ++ " Service" }
             else st2
  let st4 := if d.year = now.year ∧ d.month = now.month
             then { st3 with servicesThisMonth := st3.servicesThisMonth + 1 }
             else st3
  if SDate.leb threeMonthsAgo d && SDate.leb d now
  then { st4 with servicesLast3Months := st4.servicesLast3Months + 1 }
  else st4

/-- The stats map built by the main loop of `calculateServiceStats`
(part_000 lines 1428–1478): skips the header row, rows with blank trimmed id
or name, and rows without a parseable date. -/
def buildStatsMap (now : SDate) (serviceData : List SvcRow) :
    List (String × PersonStats) :=
  let threeMonthsAgo := subMonths now 3
  (serviceData.drop 1).foldl (fun m r =>
    let personId := jsTrim r.personId
    let fullName := jsTrim r.fullName
    if personId = "" ∨ fullName = "" then m
    else match r.serviceDate with
      | none => m
      | some d =>
        let st := match alGet m personId with
                  | some st => st
                  | none => initStats personId fullName r
        alSet m personId (svcAccum now threeMonthsAgo st r d)) []

/-- The count-threshold classification of `calculateServiceStats`
(part_000 lines 1484–1490): `Core` ≥ 12, `Active` ≥ 3, else `Inactive` —
no Archive tier exists here. -/
def activityFromCount (c : Nat) : String :=
  if c ≥ 12 then "Core" else if c ≥ 3 then "Active" else "Inactive"

/-- `calculateServiceStats` (part_000 lines 1395–1513) as the map from person
id to final stats: empty when the sheet has no data rows, otherwise the
accumulated stats with the count-based activity level filled in.  (The
source's final step flattens this map into rows and sorts them by last name
for display; the per-person content proved about here is unchanged by that.) -/
def finalizeStats (st : PersonStats) : PersonStats :=
  { st with activityLevel := activityFromCount st.servicesLast3Months }

def calculateServiceStats (now : SDate) (serviceData : List SvcRow) :
    List (String × PersonStats) :=
  if serviceData.length < 2 then []
  else (buildStatsMap now serviceData).map (fun p => (p.1, finalizeStats p.2))

/-! ## part_004 `updateActivityLevels` (current version, lines 698–746) -/

/-- Per-row classification of the second `updateActivityLevels`: Archive first
(column H holds a date strictly before twelve months ago), then the count
thresholds on column E (blank or non-numeric count yields `""`). -/
def updateActivityLevelRow (twelveMonthsAgo : SDate) (count : Option Int)
    (lastAttended : Option SDate) : String :=
  match lastAttended with
  | some d =>
    if SDate.ltb d twelveMonthsAgo then "Archive"
    else match count with
         | none => ""
         | some c => if c ≥ 12 then "Core" else if c ≥ 3 then "Active" else "Inactive"
  | none =>
    match count with
    | none => ""
    | some c => if c ≥ 12 then "Core" else if c ≥ 3 then "Active" else "Inactive"

/-- `updateActivityLevels` over the sheet's (column E, column H) pairs. -/
def updateActivityLevels (now : SDate) (rows : List (Option Int × Option SDate)) :
    List String :=
  rows.map (fun p => updateActivityLevelRow (subMonths now 12) p.1 p.2)

theorem alGet_map {α β : Type} (f : α → β) :
    ∀ (m : List (String × α)) (k : String),
      alGet (m.map (fun p => (p.1, f p.2))) k = (alGet m k).map f := by
  intro m
  induction m with
  | nil => intro k; rfl
  | cons p rest ih =>
    intro k
    by_cases h : p.1 = k
    · simp [alGet, h]
    · simp [alGet, h, ih k]

theorem activityFromCount_ne_archive (c : Nat) :
    activityFromCount c ≠ "Archive" := by
  unfold activityFromCount
  by_cases h12 : c ≥ 12
  · simp [h12]
  · by_cases h3 : c ≥ 3
    · simp [h12, h3]
    · simp [h12, h3]

/-- **C4 (amended)**: the `Attendance Stats` activity-level updater
(`updateActivityLevels`, part_004 lines 698–746) classifies Archive-first —
whenever the last-attended cell holds a date strictly before twelve months ago
the level is `Archive` regardless of the count — and otherwise applies the
fixed thresholds `Core` ≥ 12, `Active` ≥ 3, else `Inactive`.  The
`Service Stats` calculator (`calculateServiceStats`, part_000 lines 1482–1505)
applies only the count thresholds and never assigns `Archive`, so the
claim's universal Archive override fails there — see the counterexample. -/
theorem activityLevel_amended :
    (∀ (tma : SDate) (c : Option Int) (d : SDate), SDate.ltb d tma = true →
      updateActivityLevelRow tma c (some d) = "Archive") ∧
    (∀ (tma : SDate) (c : Int) (la : Option SDate),
      (∀ d, la = some d → SDate.ltb d tma = false) →
      updateActivityLevelRow tma (some c) la =
        (if c ≥ 12 then "Core" else if c ≥ 3 then "Active" else "Inactive")) ∧
    (∀ (now : SDate) (data : List SvcRow) (pid : String) (st : PersonStats),
      alGet (calculateServiceStats now data) pid = some st →
      st.activityLevel = activityFromCount st.servicesLast3Months ∧
      st.activityLevel ≠ "Archive") := by
  refine ⟨?_, ?_, ?_⟩
  · intro tma c d h
    simp [updateActivityLevelRow, h]
  · intro tma c la h
    cases la with
    | none => simp [updateActivityLevelRow]
    | some d => simp [updateActivityLevelRow, h d rfl]
  · intro now data pid st h
    unfold calculateServiceStats at h
    by_cases hlen : data.length < 2
    · rw [if_pos hlen] at h
      exact absurd h (by simp [alGet])
    · rw [if_neg hlen, alGet_map finalizeStats] at h
      cases hb : alGet (buildStatsMap now data) pid with
      | none => rw [hb] at h; exact absurd h (by simp)
      | some st0 =>
        rw [hb] at h
        have hst : st = finalizeStats st0 := by
          simpa using h.symm
        subst hst
        exact ⟨rfl, activityFromCount_ne_archive _⟩

/-- Witness for **C4**: a person with trailing-window count 20 but a
last-attended date 13 months before the June 15 2025 run date is classified
`Archive` by `updateActivityLevels`; with a recent last-attended date the same
count yields `Core`. -/
theorem activityLevel_amended_witness :
    updateActivityLevelRow (subMonths ⟨2025, 5, 15⟩ 12) (some 20)
      (some ⟨2024, 4, 15⟩) = "Archive" ∧
    updateActivityLevelRow (subMonths ⟨2025, 5, 15⟩ 12) (some 20)
      (some ⟨2025, 4, 15⟩) = "Core" := by
  constructor
  · exact activityLevel_amended.1 _ (some 20) _ (by decide)
  · rw [activityLevel_amended.2.1 _ 20 _ (by intro d hd; cases hd; decide)]
    decide

/-- Counterexample for **C4** as stated: in `calculateServiceStats` a person
whose only service was 13 months before the run date (more than 12 months,
witnessed by the second conjunct) is classified `Inactive`, not `Archive` —
the Service Stats path has no Archive tier. -/
theorem activityLevel_archive_counterexample :
    (alGet (calculateServiceStats ⟨2025, 5, 15⟩
        [⟨"", "", "", "", none, ""⟩,
         ⟨"7", "Old Member", "Old", "Member", some ⟨2024, 4, 15⟩, ""⟩]) "7").map
      (fun st => (st.activityLevel, st.lastAttendedDate))
      = some ("Inactive", some ⟨2024, 4, 15⟩) ∧
    SDate.ltb ⟨2024, 4, 15⟩ (subMonths ⟨2025, 5, 15⟩ 12) = true := by decide

/-! ## part_001 `calculateAttendanceStats` (current version, lines 348–570) —
grouped records and the "last 3 months" event count -/

/-- The per-row record object built at part_001 lines 452–462.  The object
literal defines `dateForSorting` but **no `date` property**; the later reads of
`r.date` therefore see JS `undefined`, modelled by the defaulted field
`date := none`. -/
structure AttRecord where
  name : String
  dateForSorting : SDate
  displayDate : String
  eventKey : String
  month : Nat
  quarter : Nat
  year : Int
  isVolunteer : Bool
  isSundayService : Bool
  date : Option SDate := none
deriving DecidableEq, Repr

/-- Record construction (part_001 lines 443–462): derived month / fixed
calendar quarter / year fields come from the parsed date; `date` is never
assigned. -/
def mkAttRecord (name : String) (d : SDate) (displayDate eventKey : String)
    (isVolunteer isSundayService : Bool) : AttRecord :=
  { name := name, dateForSorting := d, displayDate := displayDate,
    eventKey := eventKey, month := d.month, quarter := d.month / 3,
    year := d.year, isVolunteer := isVolunteer,
    isSundayService := isSundayService }

/-- The `quarterEvents` set of a person's group (part_001 lines 475–487): an
event key is added when `r.date >= threeMonthsAgo`; since the records carry
`dateForSorting` and no `date`, the comparison reads `undefined`, which is
never `>=` a date in JS (`none` branch). -/
def quarterEventsCount (threeMonthsAgo : SDate) (records : List AttRecord) : Nat :=
  (records.foldl (fun acc r =>
    let inWindow := match r.date with
      | some d => SDate.leb threeMonthsAgo d
      | none => false
    if inWindow then (if r.eventKey ∈ acc then acc else r.eventKey :: acc)
    else acc) []).length

/-- **C5** (failing run): the "Services This Quarter" statistic of the current
`calculateAttendanceStats` is always zero — a record for an event dated on the
run date itself (June 15 2025) contributes nothing to `quarterEvents`, because
the window test reads the non-existent `r.date` field while the record stores
its date in `dateForSorting`.  The sibling Service Stats aggregation
(`calculateServiceStats`), whose window test uses the parsed date, counts the
same event: its rolling last-3-months count is 1, as the claim demands. -/
theorem quarterEventsCount_always_zero :
    quarterEventsCount (subMonths ⟨2025, 5, 15⟩ 3)
      [mkAttRecord "ann" ⟨2025, 5, 15⟩ "06/15/2025"
        "sunday service-06/15/2025" false true] = 0 ∧
    (alGet (calculateServiceStats ⟨2025, 5, 15⟩
        [⟨"", "", "", "", none, ""⟩,
         ⟨"7", "Ann", "A", "N", some ⟨2025, 5, 15⟩, ""⟩]) "7").map
      (fun st => st.servicesLast3Months) = some 1 := by decide

/-! ## Identity resolution

`resolvePersonIdAndDetails` (part_000 lines 1538–1599) and the numeric-ID
matching of `matchOrAssignBelCodes` / `generateBEL` (part_001 lines 56–209). -/

/-- `name?.toString().trim().toLowerCase()`, the normalization of
`matchOrAssignBelCodes` (part_001 line 67). -/
def normalizeLower (s : String) : String := jsLower (jsTrim s)

/-- Digit character of a value 0–9 (to render a minted id the way JS string
interpolation renders a number). -/
def digitChar (d : Nat) : Char := Char.ofNat (48 + d)

/-- Decimal digits of `n`, with structural fuel (any `fuel > 0` works, the
recursion divides by 10 each step). -/
def natDigits : Nat → Nat → List Char
  | 0, _ => []
  | fuel + 1, n =>
    if n < 10 then [digitChar n]
    else natDigits fuel (n / 10) ++ [digitChar (n % 10)]

/-- Decimal rendering of a natural number, `` `${n}` `` in JS. -/
def natToString (n : Nat) : String := String.mk (natDigits (n + 1) n)

/-- Splitting on whitespace runs, JS `fullName.split(/\s+/)`: a leading or
trailing run contributes an empty token, interior runs do not.  Structural fuel
(`fuel ≥ length` suffices since the scan only shortens the list). -/
def splitWsAux : Nat → List Char → List Char → List String
  | 0, acc, _ => [String.mk acc.reverse]
  | _ + 1, acc, [] => [String.mk acc.reverse]
  | fuel + 1, acc, c :: rest =>
    if c.isWhitespace then
      String.mk acc.reverse :: splitWsAux fuel [] (rest.dropWhile Char.isWhitespace)
    else splitWsAux fuel (c :: acc) rest

/-- JS `fullName.split(/\s+/)`. -/
def jsSplitWs (s : String) : List String := splitWsAux s.data.length [] s.data

/-- JS `arr.join(" ")`. -/
def joinSpace : List String → String
  | [] => ""
  | [x] => x
  | x :: rest => x ++ " " ++ joinSpace rest

/-- The derive-from-name fallback of `resolvePersonIdAndDetails` (part_000
lines 1593–1597): first token = first name, remaining tokens joined = last
name (empty when there is a single token). -/
def namePartsOf (fullName : String) : String × String :=
  let parts := jsSplitWs fullName
  (parts.headD "",
   if parts.length > 1 then joinSpace (parts.drop 1) else "")

/-- A directory entry as built by `getDirectoryDataMap` (part_000 lines
1652–1686); all fields are trimmed strings, `id` may be any non-empty string
(ids are not re-validated numerically there). -/
structure DirEntry where
  id : String
  firstName : String
  lastName : String
  email : String
deriving DecidableEq, Repr

/-- The six identity sources consulted by `resolvePersonIdAndDetails`
(part_000 lines 1544–1557), each keyed by trimmed upper-cased full name, plus
the two highest-id scans used when minting (lines 1584–1587).  Local-sheet
maps hold the person-id cell as a string. -/
structure ResolveEnv where
  directoryMap : List (String × DirEntry)
  serviceAttendanceIdMap : List (String × String)
  eventAttendanceIdMap : List (String × String)
  sundayRegMap : List (String × String)
  eventRegMap : List (String × String)
  sundayServiceFormMap : List (String × String)
  highestDirectoryId : Nat
  highestLocalId : Nat

/-- JS truthiness of a map-get result: a miss (`undefined`) and an empty
string are both falsy. -/
def truthyOpt : Option String → Option String
  | some s => if s = "" then none else some s
  | none => none

/-- The id / names / email selected by the priority chain of
`resolvePersonIdAndDetails` (part_000 lines 1559–1591) for an
already-normalized name: Directory (when its entry has a truthy id), then
Service Attendance, Event Attendance, Sunday Registration, Event Registration,
Sunday Service form responses; otherwise a freshly minted id
`max(highest directory id, highest local id) + 1`.  In the non-directory
branches the names/email still come from the directory entry when one exists. -/
def resolveIdChain (env : ResolveEnv) (n : String) :
    String × String × String × String :=
  let directoryEntry := alGet env.directoryMap n
  let dirNames : String × String × String :=
    match directoryEntry with
    | some e => (e.firstName, e.lastName, e.email)
    | none => ("", "", "")
  let fromLocal : Option String :=
    match truthyOpt (alGet env.serviceAttendanceIdMap n) with
    | some i => some i
    | none =>
      match truthyOpt (alGet env.eventAttendanceIdMap n) with
      | some i => some i
      | none =>
        match truthyOpt (alGet env.sundayRegMap n) with
        | some i => some i
        | none =>
          match truthyOpt (alGet env.eventRegMap n) with
          | some i => some i
          | none => truthyOpt (alGet env.sundayServiceFormMap n)
  match directoryEntry with
  | some e =>
    if e.id ≠ "" then (e.id, e.firstName, e.lastName, e.email)
    else
      match fromLocal with
      | some i => (i, dirNames.1, dirNames.2.1, dirNames.2.2)
      | none =>
        (natToString (max env.highestDirectoryId env.highestLocalId + 1),
         "", "", "")
  | none =>
    match fromLocal with
    | some i => (i, dirNames.1, dirNames.2.1, dirNames.2.2)
    | none =>
      (natToString (max env.highestDirectoryId env.highestLocalId + 1),
       "", "", "")

/-- The `PersonIdentity`-like result of `resolvePersonIdAndDetails`. -/
structure PersonDetails where
  id : String
  firstName : String
  lastName : String
  email : String
deriving DecidableEq, Repr

/-- `resolvePersonIdAndDetails` (part_000 lines 1538–1599): normalize the
name, run the priority chain, then apply the split-on-whitespace name fallback
when both name parts are still empty and the input is truthy.  Minting writes
nothing back: the function's environment is unchanged by a call. -/
def resolvePersonIdAndDetails (env : ResolveEnv) (fullName : String) :
    PersonDetails :=
  let n := jsUpper (jsTrim fullName)
  let r := resolveIdChain env n
  let fn := r.2.1
  let ln := r.2.2.1
  let em := r.2.2.2
  if fn = "" ∧ ln = "" ∧ fullName ≠ "" then
    let parts := namePartsOf fullName
    ⟨r.1, parts.1, parts.2, em⟩
  else ⟨r.1, fn, ln, em⟩

/-- One Directory row of `matchOrAssignBelCodes` Step 1 (part_001 lines
71–97): state is (belMap, allUsedCodes); a row with a truthy normalized name
and a valid numeric id registers the id as used and maps the name to it when
the name is not yet mapped.  (Rows with fewer than two cells, which the source
skips, are simply absent from the model's row list.) -/
def belDirStep (acc : List (String × Nat) × List Nat) (row : JsVal × String) :
    List (String × Nat) × List Nat :=
  let name := normalizeLower row.2
  if name ≠ "" then
    match extractNumericBel row.1 with
    | some b =>
      (if alGet acc.1 name = none then alSet acc.1 name b else acc.1,
       b :: acc.2)
    | none => acc
  else acc

/-- One attendance row of Step 2 (part_001 lines 108–124): a valid numeric id
is always added to the used set, and additionally mapped when the name is
truthy and not yet mapped. -/
def belAttStep (acc : List (String × Nat) × List Nat) (row : JsVal × String) :
    List (String × Nat) × List Nat :=
  let name := normalizeLower row.2
  match extractNumericBel row.1 with
  | some b =>
    (if name ≠ "" ∧ alGet acc.1 name = none then alSet acc.1 name b else acc.1,
     b :: acc.2)
  | none => acc

/-- Steps 1–2 of `matchOrAssignBelCodes`: the Directory rows (below the
header) populate the map first, then the Event Attendance and Service
Attendance rows (in that order, part_001 lines 104–106). -/
def buildBelState (dData eData sData : List (JsVal × String)) :
    List (String × Nat) × List Nat :=
  ((eData.drop 1) ++ (sData.drop 1)).foldl belAttStep
    ((dData.drop 1).foldl belDirStep ([], []))

/-- `highestFoundNum` of Step 3 (part_001 lines 128–133). -/
def highestNum (used : List Nat) : Nat := used.foldl max 0

/-- Run-scoped state of the `generateBEL` closure (part_001 lines 138–153):
the name→id map, the used-code set, the counter, and the fixed overflow limit
`highestFoundNum + 20000`. -/
structure GenState where
  belMap : List (String × Nat)
  used : List Nat
  counter : Nat
  limit : Nat
deriving DecidableEq, Repr

/-- The `while (true)` search of `generateBEL`: return the first counter value
not in the used set, advancing the counter past it; fail (the source throws)
when the counter passes the limit.  Structural fuel; `limit + 2` steps always
suffice for the caller. -/
def generateBELAux (used : List Nat) : Nat → Nat → Nat → Option (Nat × Nat)
  | 0, _, _ => none
  | fuel + 1, c, limit =>
    if c ∈ used then
      if c + 1 > limit then none else generateBELAux used fuel (c + 1) limit
    else some (c, c + 1)

/-- `generateBEL` (part_001 lines 139–153): on success the fresh code is
recorded in the used set and the counter advanced. -/
def generateBEL (st : GenState) : Option (Nat × GenState) :=
  match generateBELAux st.used (st.limit + 2) st.counter st.limit with
  | some (c, c') => some (c, { st with used := c :: st.used, counter := c' })
  | none => none

/-- Id assignment for one attendance row in Step 5 (part_001 lines 168–175):
reuse the mapped id for a known name, otherwise mint via `generateBEL` and
record the new name→id binding. -/
def assignId (st : GenState) (name : String) : Option (Nat × Bool × GenState) :=
  match alGet st.belMap name with
  | some b => some (b, false, st)
  | none =>
    match generateBEL st with
    | some (c, st') => some (c, true, { st' with belMap := alSet st'.belMap name c })
    | none => none

/-- The Step 5 loop over the attendance rows' raw names: rows whose normalized
name is empty are skipped; otherwise the row receives an id (retaining whether
it was freshly minted).  `none` when the source would throw. -/
def runAssign (st : GenState) :
    List String → Option (List (String × Nat × Bool) × GenState)
  | [] => some ([], st)
  | raw :: rest =>
    let name := normalizeLower raw
    if name = "" then runAssign st rest
    else
      match assignId st name with
      | some (b, minted, st') =>
        match runAssign st' rest with
        | some (out, stf) => some ((name, b, minted) :: out, stf)
        | none => none
      | none => none

theorem alGet_alSet {α : Type} :
    ∀ (m : List (String × α)) (k k' : String) (v : α),
      alGet (alSet m k v) k' = if k = k' then some v else alGet m k' := by
  intro m
  induction m with
  | nil =>
    intro k k' v
    by_cases h : k = k'
    · simp [alSet, alGet, h]
    · simp [alSet, alGet, h]
  | cons p rest ih =>
    intro k k' v
    obtain ⟨k0, v0⟩ := p
    by_cases h0 : k0 = k
    · subst h0
      by_cases h' : k0 = k'
      · simp [alSet, alGet, h']
      · simp [alSet, alGet, h']
    · by_cases h' : k0 = k'
      · subst h'
        have : ¬ k = k0 := fun he => h0 he.symm
        simp [alSet, alGet, h0, this]
      · simp [alSet, alGet, h0, h', ih k k' v]

theorem generateBELAux_spec (used : List Nat) :
    ∀ (fuel c limit r c' : Nat),
      generateBELAux used fuel c limit = some (r, c') →
      r ∉ used ∧ c ≤ r ∧ c' = r + 1 := by
  intro fuel
  induction fuel with
  | zero =>
    intro c limit r c' h
    exact absurd h (by simp [generateBELAux])
  | succ f ih =>
    intro c limit r c' h
    by_cases hc : c ∈ used
    · by_cases hl : c + 1 > limit
      · rw [generateBELAux, if_pos hc, if_pos hl] at h
        exact absurd h (by simp)
      · rw [generateBELAux, if_pos hc, if_neg hl] at h
        obtain ⟨h1, h2, h3⟩ := ih (c + 1) limit r c' h
        exact ⟨h1, by omega, h3⟩
    · rw [generateBELAux, if_neg hc] at h
      have hp := Option.some.inj h
      have h1 : c = r := congrArg Prod.fst hp
      have h2 : c + 1 = c' := congrArg Prod.snd hp
      subst h1
      exact ⟨hc, Nat.le_refl c, h2.symm⟩

/-- Well-formedness threading through a `matchOrAssignBelCodes` run: every
mapped id is a used code. -/
def BelWF (st : GenState) : Prop :=
  ∀ n b, alGet st.belMap n = some b → b ∈ st.used

theorem generateBEL_spec (st : GenState) (c : Nat) (st' : GenState)
    (h : generateBEL st = some (c, st')) :
    c ∉ st.used ∧ st.counter ≤ c ∧ st'.counter = c + 1 ∧
    st'.used = c :: st.used ∧ st'.belMap = st.belMap ∧ st'.limit = st.limit := by
  unfold generateBEL at h
  cases haux : generateBELAux st.used (st.limit + 2) st.counter st.limit with
  | none => rw [haux] at h; exact absurd h (by simp)
  | some p =>
    obtain ⟨r, c'⟩ := p
    rw [haux] at h
    have hp := Option.some.inj h
    have h1 : r = c := congrArg Prod.fst hp
    have h2 : ({ st with used := r :: st.used, counter := c' } : GenState) = st' :=
      congrArg Prod.snd hp
    subst h1
    obtain ⟨ha, hb, hc⟩ := generateBELAux_spec st.used _ _ _ _ _ haux
    subst hc
    rw [← h2]
    exact ⟨ha, hb, rfl, rfl, rfl, rfl⟩

theorem assignId_spec (st : GenState) (name : String) (b : Nat) (minted : Bool)
    (st' : GenState) (hwf : BelWF st)
    (h : assignId st name = some (b, minted, st')) :
    BelWF st' ∧
    st.counter ≤ st'.counter ∧
    (∀ x ∈ st.used, x ∈ st'.used) ∧
    (∀ n b0, alGet st.belMap n = some b0 → alGet st'.belMap n = some b0) ∧
    alGet st'.belMap name = some b ∧
    (minted = false → st' = st) ∧
    (minted = true → b ∉ st.used ∧ st.counter ≤ b ∧ st'.counter = b + 1) := by
  unfold assignId at h
  cases hm : alGet st.belMap name with
  | some b0 =>
    rw [hm] at h
    have hp := Option.some.inj h
    have h1 : b0 = b := congrArg Prod.fst hp
    have h2 : false = minted := congrArg (fun q : Nat × Bool × GenState => q.2.1) hp
    have h3 : st = st' := congrArg (fun q : Nat × Bool × GenState => q.2.2) hp
    subst h1; subst h3
    refine ⟨hwf, Nat.le_refl _, fun x hx => hx, fun n c hc => hc, hm, fun _ => rfl, ?_⟩
    intro hmt
    rw [← h2] at hmt
    exact absurd hmt (by simp)
  | none =>
    rw [hm] at h
    cases hg : generateBEL st with
    | none => rw [hg] at h; exact absurd h (by simp)
    | some p =>
      obtain ⟨c, stg⟩ := p
      rw [hg] at h
      have hp := Option.some.inj h
      have h1 : c = b := congrArg Prod.fst hp
      subst h1
      have h2 : true = minted := congrArg (fun q : Nat × Bool × GenState => q.2.1) hp
      have h3 : ({ stg with belMap := alSet stg.belMap name c } : GenState) = st' :=
        congrArg (fun q : Nat × Bool × GenState => q.2.2) hp
      obtain ⟨hfresh, hge, hcounter, hused, hmap, hlim⟩ := generateBEL_spec st c stg hg
      rw [← h3]
      refine ⟨?_, ?_, ?_, ?_, ?_, ?_, ?_⟩
      · intro n b0 hb0
        rw [show ({ stg with belMap := alSet stg.belMap name c } : GenState).belMap
              = alSet stg.belMap name c from rfl, alGet_alSet, hmap] at hb0
        by_cases he : name = n
        · rw [if_pos he] at hb0
          rw [show ({ stg with belMap := alSet stg.belMap name c } : GenState).used
                = stg.used from rfl, hused]
          exact (Option.some.inj hb0) ▸ List.mem_cons_self c st.used
        · rw [if_neg he] at hb0
          rw [show ({ stg with belMap := alSet stg.belMap name c } : GenState).used
                = stg.used from rfl, hused]
          exact List.mem_cons_of_mem c (hwf n b0 hb0)
      · rw [show ({ stg with belMap := alSet stg.belMap name c } : GenState).counter
              = stg.counter from rfl, hcounter]
        omega
      · intro x hx
        rw [show ({ stg with belMap := alSet stg.belMap name c } : GenState).used
              = stg.used from rfl, hused]
        exact List.mem_cons_of_mem c hx
      · intro n b0 hb0
        rw [show ({ stg with belMap := alSet stg.belMap name c } : GenState).belMap
              = alSet stg.belMap name c from rfl, alGet_alSet, hmap]
        have he : name ≠ n := fun he => by rw [← he, hm] at hb0; exact absurd hb0 (by simp)
        rw [if_neg he]
        exact hb0
      · rw [show ({ stg with belMap := alSet stg.belMap name c } : GenState).belMap
              = alSet stg.belMap name c from rfl, alGet_alSet, if_pos rfl]
      · intro hmf
        rw [← h2] at hmf
        exact absurd hmf (by simp)
      · intro _
        exact ⟨hfresh, hge, by
          rw [show ({ stg with belMap := alSet stg.belMap name c } : GenState).counter
                = stg.counter from rfl, hcounter]⟩

theorem runAssign_spec (names : List String) :
    ∀ (st : GenState) (out : List (String × Nat × Bool)) (stf : GenState),
      BelWF st → runAssign st names = some (out, stf) →
      BelWF stf ∧
      st.counter ≤ stf.counter ∧
      (∀ x ∈ st.used, x ∈ stf.used) ∧
      (∀ n b0, alGet st.belMap n = some b0 → alGet stf.belMap n = some b0) ∧
      (∀ e ∈ out, alGet stf.belMap e.1 = some e.2.1) ∧
      (∀ e ∈ out, e.2.2 = true → e.2.1 ∉ st.used ∧ st.counter ≤ e.2.1) ∧
      (out.filterMap (fun e => if e.2.2 then some e.2.1 else none)).Pairwise
        (· < ·) := by
  induction names with
  | nil =>
    intro st out stf hwf h
    simp only [runAssign] at h
    have hp := Option.some.inj h
    have h1 : ([] : List (String × Nat × Bool)) = out := congrArg Prod.fst hp
    have h2 : st = stf := congrArg Prod.snd hp
    subst h1; subst h2
    refine ⟨hwf, Nat.le_refl _, fun x hx => hx, fun n b0 hb0 => hb0, ?_, ?_, ?_⟩
    · intro e he; exact absurd he (List.not_mem_nil e)
    · intro e he; exact absurd he (List.not_mem_nil e)
    · simp
  | cons raw rest ih =>
    intro st out stf hwf h
    simp only [runAssign] at h
    by_cases hn : normalizeLower raw = ""
    · rw [if_pos hn] at h
      exact ih st out stf hwf h
    · rw [if_neg hn] at h
      cases ha : assignId st (normalizeLower raw) with
      | none => rw [ha] at h; exact absurd h (by simp)
      | some trip =>
        obtain ⟨b, minted, st₁⟩ := trip
        rw [ha] at h
        dsimp only at h
        cases hr : runAssign st₁ rest with
        | none => rw [hr] at h; exact absurd h (by simp)
        | some pr =>
          obtain ⟨out₁, stf₁⟩ := pr
          rw [hr] at h
          have hp := Option.some.inj h
          have h1 : (normalizeLower raw, b, minted) :: out₁ = out :=
            congrArg Prod.fst hp
          have h2 : stf₁ = stf := congrArg Prod.snd hp
          subst h2
          obtain ⟨hwf₁, hc₁, hu₁, hm₁, hlook₁, hmf₁, hmt₁⟩ :=
            assignId_spec st (normalizeLower raw) b minted st₁ hwf ha
          obtain ⟨hwfF, hcF, huF, hmF, hlookF, hfreshF, hpwF⟩ :=
            ih st₁ out₁ stf₁ hwf₁ hr
          rw [← h1]
          refine ⟨hwfF, Nat.le_trans hc₁ hcF, fun x hx => huF x (hu₁ x hx),
            fun n b0 hb0 => hmF n b0 (hm₁ n b0 hb0), ?_, ?_, ?_⟩
          · intro e he
            rcases List.mem_cons.mp he with he | he
            · subst he
              exact hmF _ _ hlook₁
            · exact hlookF e he
          · intro e he hmt
            rcases List.mem_cons.mp he with he | he
            · subst he
              obtain ⟨hf, hg, _⟩ := hmt₁ hmt
              exact ⟨hf, hg⟩
            · obtain ⟨hf, hg⟩ := hfreshF e he hmt
              exact ⟨fun hx => hf (hu₁ _ hx), Nat.le_trans hc₁ hg⟩
          · cases hmv : minted with
            | false => simpa [hmv] using hpwF
            | true =>
              obtain ⟨hf, hg, hcnt⟩ := hmt₁ hmv
              have hstep :
                  List.filterMap (fun e => if e.2.2 = true then some e.2.1 else none)
                    ((normalizeLower raw, b, minted) :: out₁)
                    = b :: List.filterMap
                        (fun e => if e.2.2 = true then some e.2.1 else none) out₁ := by
                simp [List.filterMap_cons, hmv]
              rw [hmv] at hstep
              rw [hstep, List.pairwise_cons]
              refine ⟨?_, hpwF⟩
              intro y hy
              obtain ⟨e, he, hfe⟩ := List.mem_filterMap.mp hy
              have hemt : e.2.2 = true := by
                by_contra hne
                rw [Bool.not_eq_true] at hne
                rw [if_neg (by simp [hne])] at hfe
                exact absurd hfe (by simp)
              rw [if_pos (by simp [hemt])] at hfe
              have hyv : e.2.1 = y := Option.some.inj hfe
              obtain ⟨_, hgy⟩ := hfreshF e he hemt
              rw [hcnt] at hgy
              omega

theorem resolve_id_eq_chain (env : ResolveEnv) (n : String) :
    (resolvePersonIdAndDetails env n).id
      = (resolveIdChain env (jsUpper (jsTrim n))).1 := by
  simp only [resolvePersonIdAndDetails]
  split <;> rfl

/-- **C1 (amended)**: within one `matchOrAssignBelCodes` run the assignment
loop never issues one id to two different normalized names and never repeats
or decreases an id — every row with the same normalized name receives the same
id, the freshly minted ids are strictly increasing in issue order, and no
minted id collides with a pre-existing one.  `resolvePersonIdAndDetails` is
deterministic for a fixed sheet state, so resolving the same unseen name twice
with no intervening ledger write returns the same id both times; but because
it records nothing between calls, two *different* unseen names resolved with
no intervening ledger write receive the *same* minted id, refuting the claim
as stated — see the counterexample. -/
theorem resolve_id_monotone_amended :
    (∀ (st : GenState) (names : List String) (out : List (String × Nat × Bool))
       (stf : GenState), BelWF st → runAssign st names = some (out, stf) →
       (∀ e1 ∈ out, ∀ e2 ∈ out, e1.1 = e2.1 → e1.2.1 = e2.2.1) ∧
       (out.filterMap (fun e => if e.2.2 then some e.2.1 else none)).Pairwise
         (· < ·) ∧
       (∀ e ∈ out, e.2.2 = true → e.2.1 ∉ st.used)) ∧
    (∀ (env : ResolveEnv) (n1 n2 : String),
       jsUpper (jsTrim n1) = jsUpper (jsTrim n2) →
       (resolvePersonIdAndDetails env n1).id
         = (resolvePersonIdAndDetails env n2).id) := by
  constructor
  · intro st names out stf hwf hrun
    obtain ⟨_, _, _, _, hlook, hfresh, hpw⟩ :=
      runAssign_spec names st out stf hwf hrun
    refine ⟨?_, hpw, ?_⟩
    · intro e1 he1 e2 he2 heq
      have h1 := hlook e1 he1
      have h2 := hlook e2 he2
      rw [heq] at h1
      rw [h1] at h2
      exact Option.some.inj h2
    · intro e he hmt
      exact (hfresh e he hmt).1
  · intro env n1 n2 h
    rw [resolve_id_eq_chain, resolve_id_eq_chain, h]

/-- Witness for **C1**: a concrete run assigning ids to `Ann`, `Ann`, `Bob`
(same name resolved twice gets id 1 both times; `Bob` gets the fresh id 2),
and two whitespace-variant spellings of one unseen name resolving to the same
minted id. -/
theorem resolve_id_monotone_amended_witness :
    (runAssign ⟨[], [], 1, 20000⟩ ["Ann", "Ann", "Bob"]
      = some ([("ann", 1, true), ("ann", 1, false), ("bob", 2, true)],
              ⟨[("ann", 1), ("bob", 2)], [2, 1], 3, 20000⟩)) ∧
    (∀ e1 ∈ [("ann", 1, true), ("ann", 1, false), ("bob", 2, true)],
     ∀ e2 ∈ [("ann", 1, true), ("ann", 1, false), ("bob", 2, true)],
       e1.1 = e2.1 → e1.2.1 = e2.2.1) ∧
    (resolvePersonIdAndDetails ⟨[], [], [], [], [], [], 5, 7⟩ "Jane Roe").id
      = (resolvePersonIdAndDetails ⟨[], [], [], [], [], [], 5, 7⟩
          " JANE roe ").id := by
  refine ⟨by decide, ?_, ?_⟩
  · exact (resolve_id_monotone_amended.1 ⟨[], [], 1, 20000⟩ ["Ann", "Ann", "Bob"]
      [("ann", 1, true), ("ann", 1, false), ("bob", 2, true)]
      ⟨[("ann", 1), ("bob", 2)], [2, 1], 3, 20000⟩
      (fun n b hb => by simp [alGet] at hb) (by decide)).1
  · exact resolve_id_monotone_amended.2 ⟨[], [], [], [], [], [], 5, 7⟩
      "Jane Roe" " JANE roe " (by decide)

/-- Counterexample for **C1** as stated: with no intervening ledger write,
`resolvePersonIdAndDetails` issues the *same* id (`max + 1`) to the two
different normalized names `ALICE A` and `BOB B`, because minting records
nothing in any map. -/
theorem resolve_same_id_counterexample :
    (resolvePersonIdAndDetails ⟨[], [], [], [], [], [], 0, 0⟩ "Alice A").id
      = (resolvePersonIdAndDetails ⟨[], [], [], [], [], [], 0, 0⟩ "Bob B").id ∧
    jsUpper (jsTrim "Alice A") ≠ jsUpper (jsTrim "Bob B") := by decide

theorem belAttStep_preserves (acc : List (String × Nat) × List Nat)
    (row : JsVal × String) (n : String) (b : Nat)
    (h : alGet acc.1 n = some b) : alGet (belAttStep acc row).1 n = some b := by
  unfold belAttStep
  cases he : extractNumericBel row.1 with
  | none => exact h
  | some b' =>
    dsimp only
    by_cases hc : normalizeLower row.2 ≠ "" ∧ alGet acc.1 (normalizeLower row.2) = none
    · rw [if_pos hc, alGet_alSet]
      have hne : normalizeLower row.2 ≠ n := by
        intro heq
        rw [heq, h] at hc
        exact Option.noConfusion hc.2
      rw [if_neg hne]
      exact h
    · rw [if_neg hc]
      exact h

theorem foldl_belAttStep_preserves (rows : List (JsVal × String)) :
    ∀ (acc : List (String × Nat) × List Nat) (n : String) (b : Nat),
      alGet acc.1 n = some b → alGet (rows.foldl belAttStep acc).1 n = some b := by
  induction rows with
  | nil => intro acc n b h; exact h
  | cons row rest ih =>
    intro acc n b h
    exact ih (belAttStep acc row) n b (belAttStep_preserves acc row n b h)

/-- **C6**: resolution returns the id from the highest-priority source with a
valid id for the name.  In `resolvePersonIdAndDetails`, whenever the external
Directory maps the normalized name to an entry with a truthy id, that id is
returned no matter what any attendance sheet or worksheet says; in
`matchOrAssignBelCodes`, a name→id binding contributed by the Directory pass
survives the subsequent attendance passes untouched. -/
theorem directory_priority :
    (∀ (env : ResolveEnv) (fullName : String) (e : DirEntry),
       alGet env.directoryMap (jsUpper (jsTrim fullName)) = some e →
       e.id ≠ "" →
       (resolvePersonIdAndDetails env fullName).id = e.id) ∧
    (∀ (dData eData sData : List (JsVal × String)) (n : String) (b : Nat),
       alGet ((dData.drop 1).foldl belDirStep ([], [])).1 n = some b →
       alGet (buildBelState dData eData sData).1 n = some b) := by
  constructor
  · intro env fullName e hm he
    rw [resolve_id_eq_chain]
    simp only [resolveIdChain, hm]
    rw [if_pos he]
  · intro dData eData sData n b h
    exact foldl_belAttStep_preserves _ _ n b h

/-- Witness for **C6**: the Directory says John Smith is 10 while a
lower-priority source says 77; both resolution paths return 10. -/
theorem directory_priority_witness :
    (resolvePersonIdAndDetails
      ⟨[("JOHN SMITH", ⟨"10", "John", "Smith", "j@x.org"⟩)],
       [], [], [("JOHN SMITH", "77")], [], [], 0, 0⟩ "John Smith").id = "10" ∧
    alGet (buildBelState
        [(.other, ""), (.str "10", "John Smith")]
        [(.other, ""), (.str "77", "John Smith")] []).1 "john smith"
      = some 10 := by
  constructor
  · exact directory_priority.1
      ⟨[("JOHN SMITH", ⟨"10", "John", "Smith", "j@x.org"⟩)],
       [], [], [("JOHN SMITH", "77")], [], [], 0, 0⟩ "John Smith"
      ⟨"10", "John", "Smith", "j@x.org"⟩ (by decide) (by decide)
  · exact directory_priority.2
      [(.other, ""), (.str "10", "John Smith")]
      [(.other, ""), (.str "77", "John Smith")] [] "john smith" 10 (by decide)

/-! ## PullSSAttendance.js `onFormSubmitTransfer` — bounded poll for the id -/

/-- `MAX_RETRIES_FOR_ID` (PullSSAttendance.js line 175). -/
def MAX_RETRIES_FOR_ID : Nat := 50

/-- `RETRY_DELAY_MS_FOR_ID` (line 176). -/
def RETRY_DELAY_MS_FOR_ID : Nat := 2500

/-- The retry loop of lines 180–188: each iteration sleeps once
(`RETRY_DELAY_MS_FOR_ID`) and re-reads cell A (`reads i` is the value seen on
attempt `i`); it stops at the first truthy value or after `fuel` iterations
(the loop bound).  Returns the final `personalId` value and the number of
sleeps performed. -/
def pollForId (reads : Nat → String) : Nat → Nat → String × Nat
  | _, 0 => ("", 0)
  | i, fuel + 1 =>
    let v := reads i
    if v ≠ "" then (v, 1)
    else
      let r := pollForId reads (i + 1) fuel
      (r.1, r.2 + 1)

/-- The environment of one `onFormSubmitTransfer` invocation: the first read
of the submitted row, the sequence of values the poll sees in cell A, the
second full read of the row after the poll, and the Service Attendance data at
dedup time. -/
structure FormEnv where
  initialRow : Row9
  cellReads : Nat → String
  finalRow : Row9
  ledger : List Row9

/-- The tail of `onFormSubmitTransfer` after the poll (PullSSAttendance.js
lines 191–266): empty id → skip; then the safeguard re-check of the re-read
row, the duplicate-key check against the ledger, and the append. -/
def formFinish (env : FormEnv) (sleepMs : Nat) (pid : String) :
    Option Row9 × Nat :=
  if pid = "" then (none, sleepMs)
  else
    match env.finalRow.timestamp with
    | none => (none, sleepMs)
    | some t =>
      if env.finalRow.personalId = "" ∨ env.finalRow.fullName = "" then
        (none, sleepMs)
      else if entryKey env.finalRow.fullName t ∈ existingKeys env.ledger then
        (none, sleepMs)
      else (some (mkNewEntry env.finalRow t), sleepMs)

/-- `onFormSubmitTransfer` (PullSSAttendance.js lines 148–266), from the point
where the submitted row has been read: missing name/timestamp → skip; empty id
→ bounded poll; then `formFinish`.  Returns the appended row (`none` when the
row is skipped) and the total poll sleep in milliseconds. -/
def onFormSubmitTransfer (env : FormEnv) : Option Row9 × Nat :=
  if env.initialRow.fullName = "" ∨ env.initialRow.timestamp = none then (none, 0)
  else
    let pr :=
      if env.initialRow.personalId ≠ "" then (env.initialRow.personalId, 0)
      else pollForId env.cellReads 0 MAX_RETRIES_FOR_ID
    formFinish env (pr.2 * RETRY_DELAY_MS_FOR_ID) pr.1

theorem pollForId_sleeps_le (reads : Nat → String) :
    ∀ (fuel i : Nat), (pollForId reads i fuel).2 ≤ fuel := by
  intro fuel
  induction fuel with
  | zero => intro i; simp [pollForId]
  | succ f ih =>
    intro i
    by_cases h : reads i ≠ ""
    · simp [pollForId, h]
    · simp only [pollForId, if_neg h]
      have := ih (i + 1)
      omega

theorem pollForId_all_empty (reads : Nat → String) (hall : ∀ k, reads k = "") :
    ∀ (fuel i : Nat), pollForId reads i fuel = ("", fuel) := by
  intro fuel
  induction fuel with
  | zero => intro i; rfl
  | succ f ih =>
    intro i
    have h : ¬ reads i ≠ "" := by simp [hall i]
    simp only [pollForId, if_neg h, ih (i + 1)]

theorem formFinish_sleep (env : FormEnv) (s : Nat) (pid : String) :
    (formFinish env s pid).2 = s := by
  unfold formFinish
  by_cases h : pid = ""
  · rw [if_pos h]
  · rw [if_neg h]
    cases env.finalRow.timestamp with
    | none => rfl
    | some t =>
      dsimp only
      by_cases h1 : env.finalRow.personalId = "" ∨ env.finalRow.fullName = ""
      · rw [if_pos h1]
      · rw [if_neg h1]
        by_cases h2 : entryKey env.finalRow.fullName t ∈ existingKeys env.ledger
        · rw [if_pos h2]
        · rw [if_neg h2]

theorem formFinish_some_id (env : FormEnv) (s : Nat) (pid : String) (r : Row9)
    (h : (formFinish env s pid).1 = some r) : r.personalId ≠ "" := by
  unfold formFinish at h
  by_cases hp : pid = ""
  · rw [if_pos hp] at h
    exact absurd h (by simp)
  · rw [if_neg hp] at h
    cases ht : env.finalRow.timestamp with
    | none => rw [ht] at h; exact absurd h (by simp)
    | some t =>
      rw [ht] at h
      dsimp only at h
      by_cases h1 : env.finalRow.personalId = "" ∨ env.finalRow.fullName = ""
      · rw [if_pos h1] at h
        exact absurd h (by simp)
      · rw [if_neg h1] at h
        by_cases h2 : entryKey env.finalRow.fullName t ∈ existingKeys env.ledger
        · rw [if_pos h2] at h
          exact absurd h (by simp)
        · rw [if_neg h2] at h
          have hr : mkNewEntry env.finalRow t = r := Option.some.inj h
          rw [← hr]
          have hpid : env.finalRow.personalId ≠ "" := fun he => h1 (Or.inl he)
          simpa [mkNewEntry] using hpid

/-- **C9**: for a form-submitted row, the id poll has a fixed per-attempt
delay (2500 ms per sleep) and a hard cap (50 attempts), so the total blocking
time is at most 50 × 2500 ms; a row is never appended to the Service
Attendance ledger with an empty person id; and for a well-formed row whose id
cell is initially empty and never becomes non-empty, the run performs exactly
the capped 50 delays and skips the row. -/
theorem onFormSubmitTransfer_spec :
    (∀ env : FormEnv,
      (onFormSubmitTransfer env).2
        ≤ MAX_RETRIES_FOR_ID * RETRY_DELAY_MS_FOR_ID) ∧
    (∀ (env : FormEnv) (r : Row9),
      (onFormSubmitTransfer env).1 = some r → r.personalId ≠ "") ∧
    (∀ env : FormEnv, env.initialRow.personalId = "" →
      (∀ k, env.cellReads k = "") →
      env.initialRow.fullName ≠ "" → env.initialRow.timestamp ≠ none →
      (onFormSubmitTransfer env).1 = none ∧
      (onFormSubmitTransfer env).2
        = MAX_RETRIES_FOR_ID * RETRY_DELAY_MS_FOR_ID) := by
  refine ⟨?_, ?_, ?_⟩
  · intro env
    unfold onFormSubmitTransfer
    by_cases h0 : env.initialRow.fullName = "" ∨ env.initialRow.timestamp = none
    · rw [if_pos h0]
      exact Nat.zero_le _
    · rw [if_neg h0]
      dsimp only
      rw [formFinish_sleep]
      apply Nat.mul_le_mul_right
      by_cases hp : env.initialRow.personalId ≠ ""
      · rw [if_pos hp]
        exact Nat.zero_le _
      · rw [if_neg hp]
        exact pollForId_sleeps_le env.cellReads MAX_RETRIES_FOR_ID 0
  · intro env r h
    unfold onFormSubmitTransfer at h
    by_cases h0 : env.initialRow.fullName = "" ∨ env.initialRow.timestamp = none
    · rw [if_pos h0] at h
      exact absurd h (by simp)
    · rw [if_neg h0] at h
      exact formFinish_some_id env _ _ r h
  · intro env hpid hall hname hts
    unfold onFormSubmitTransfer
    have h0 : ¬ (env.initialRow.fullName = "" ∨ env.initialRow.timestamp = none) := by
      intro hc
      rcases hc with hc | hc
      · exact hname hc
      · exact hts hc
    rw [if_neg h0]
    dsimp only
    have hpr : (if env.initialRow.personalId ≠ ""
        then (env.initialRow.personalId, 0)
        else pollForId env.cellReads 0 MAX_RETRIES_FOR_ID)
          = ("", MAX_RETRIES_FOR_ID) := by
      rw [if_neg (by simp [hpid])]
      exact pollForId_all_empty env.cellReads hall MAX_RETRIES_FOR_ID 0
    rw [hpr]
    constructor
    · rfl
    · rw [formFinish_sleep]

/-- Witness for **C9**: a concrete submission whose id appears on the first
poll attempt is appended with the non-empty id `7` after one 2500 ms delay,
and a concrete submission whose id never appears is skipped after exactly the
50 capped delays. -/
theorem onFormSubmitTransfer_spec_witness :
    ((onFormSubmitTransfer ⟨⟨"", "Ann", "A", "N", some 5, "", "", "", none⟩,
        fun _ => "7",
        ⟨"7", "Ann", "A", "N", some 5, "", "", "", none⟩,
        [⟨"", "", "", "", none, "", "", "", none⟩]⟩).2
      ≤ MAX_RETRIES_FOR_ID * RETRY_DELAY_MS_FOR_ID) ∧
    (⟨"7", "Ann", "A", "N", some 5, "No", "", "", some 5⟩ : Row9).personalId
      ≠ "" ∧
    ((onFormSubmitTransfer ⟨⟨"", "Ann", "A", "N", some 5, "", "", "", none⟩,
        fun _ => "",
        ⟨"7", "Ann", "A", "N", some 5, "", "", "", none⟩, []⟩).1 = none ∧
     (onFormSubmitTransfer ⟨⟨"", "Ann", "A", "N", some 5, "", "", "", none⟩,
        fun _ => "",
        ⟨"7", "Ann", "A", "N", some 5, "", "", "", none⟩, []⟩).2
       = MAX_RETRIES_FOR_ID * RETRY_DELAY_MS_FOR_ID) := by
  refine ⟨?_, ?_, ?_⟩
  · exact onFormSubmitTransfer_spec.1
      ⟨⟨"", "Ann", "A", "N", some 5, "", "", "", none⟩, fun _ => "7",
       ⟨"7", "Ann", "A", "N", some 5, "", "", "", none⟩,
       [⟨"", "", "", "", none, "", "", "", none⟩]⟩
  · exact onFormSubmitTransfer_spec.2.1
      ⟨⟨"", "Ann", "A", "N", some 5, "", "", "", none⟩, fun _ => "7",
       ⟨"7", "Ann", "A", "N", some 5, "", "", "", none⟩,
       [⟨"", "", "", "", none, "", "", "", none⟩]⟩
      ⟨"7", "Ann", "A", "N", some 5, "No", "", "", some 5⟩ rfl
  · exact onFormSubmitTransfer_spec.2.2
      ⟨⟨"", "Ann", "A", "N", some 5, "", "", "", none⟩, fun _ => "",
       ⟨"7", "Ann", "A", "N", some 5, "", "", "", none⟩, []⟩
      rfl (fun _ => rfl) (by decide) (by decide)

/-! ## The two `getDataFromSheets` loaders

LoadandCleanData.js lines 113–177 (stats pipeline) and part_001 lines 253–296
(match-script pipeline).  Table contents are opaque row lists; I/O read
failures inside `try` blocks other than `openById` are outside the claims. -/

/-- The spreadsheet world one loader call sees: the
`DIRECTORY_SPREADSHEET_ID` script property, the three local sheets (`none`
when the sheet does not exist), and the result of `openById` per id —
`none` = the open throws, `some none` = it opens but has no `Directory`
sheet, `some (some d)` = the external `Directory` sheet holds `d`. -/
structure SheetsEnv where
  directoryProp : Option String
  serviceSheet : Option (List (List JsVal))
  eventSheet : Option (List (List JsVal))
  statsSheet : Option (List (List JsVal))
  externalOpen : String → Option (Option (List (List JsVal)))

/-- Outcome of the LoadandCleanData.js loader: a thrown error (propagated to
the caller), a bare `return` (JS `undefined`), or the four data arrays. -/
inductive LoadResult where
  | thrown (msg : String)
  | noResult
  | ok (sData eData statsData dData : List (List JsVal))
deriving DecidableEq, Repr

/-- The message of the `throw` at LoadandCleanData.js lines 120–123. -/
def missingDirectoryPropMsg : String :=
  "Missing Script Property: DIRECTORY_SPREADSHEET_ID. " ++
  "Use Config, Set Directory Spreadsheet, to configure it."

/-- `getDataFromSheets` of LoadandCleanData.js (lines 113–177): throws
immediately when the directory property is absent; returns `undefined` when a
local sheet is missing, the external open fails, or the external `Directory`
sheet is absent; otherwise returns all four tables. -/
def getDataFromSheets_main (env : SheetsEnv) : LoadResult :=
  match env.directoryProp with
  | none => .thrown missingDirectoryPropMsg
  | some directoryId =>
    match env.serviceSheet, env.eventSheet, env.statsSheet with
    | some sData, some eData, some statsData =>
      match env.externalOpen directoryId with
      | none => .noResult
      | some none => .noResult
      | some (some dData) => .ok sData eData statsData dData
    | _, _, _ => .noResult

/-- `getDataFromSheets` of part_001 (lines 253–296): never fails — when the
directory property is absent (or the external open throws, or the `Directory`
sheet is missing) it logs and returns an *empty* `dData`, and missing local
sheets likewise become empty arrays. -/
def getDataFromSheets_match (env : SheetsEnv) :
    List (List JsVal) × List (List JsVal) × List (List JsVal) :=
  let dData : List (List JsVal) :=
    match env.directoryProp with
    | none => []
    | some directoryId =>
      match env.externalOpen directoryId with
      | none => []
      | some none => []
      | some (some d) => d
  let eData : List (List JsVal) :=
    match env.eventSheet with
    | some d => d
    | none => []
  let sData : List (List JsVal) :=
    match env.serviceSheet with
    | some d => d
    | none => []
  (dData, eData, sData)

/-- **C10 (amended)**: the stats-pipeline loader (`getDataFromSheets` in
LoadandCleanData.js) fails immediately with a thrown error when
`DIRECTORY_SPREADSHEET_ID` is absent, never proceeding with a default; but the
match-script loader (`getDataFromSheets` in part_001), which feeds
`matchOrAssignBelCodes` and the Attendance Stats recompute, returns normally
with an **empty** directory table in that situation, so those operations
silently proceed — refuting the claim's "every operation" — see the
counterexample. -/
theorem configurationMissing_amended :
    (∀ env : SheetsEnv, env.directoryProp = none →
      getDataFromSheets_main env = .thrown missingDirectoryPropMsg) ∧
    (∀ env : SheetsEnv, env.directoryProp = none →
      (getDataFromSheets_match env).1 = []) := by
  constructor
  · intro env h
    unfold getDataFromSheets_main
    rw [h]
  · intro env h
    unfold getDataFromSheets_match
    rw [h]

/-- Witness for **C10**: a concrete environment with the property absent —
the stats loader throws, the match loader returns an empty directory. -/
theorem configurationMissing_amended_witness :
    getDataFromSheets_main
        ⟨none, some [[.str "svc"]], some [[.str "evt"]], some [[.str "stats"]],
         fun _ => none⟩ = .thrown missingDirectoryPropMsg ∧
    (getDataFromSheets_match
        ⟨none, some [[.str "svc"]], some [[.str "evt"]], some [[.str "stats"]],
         fun _ => none⟩).1 = [] := by
  constructor
  · exact configurationMissing_amended.1
      ⟨none, some [[.str "svc"]], some [[.str "evt"]], some [[.str "stats"]],
       fun _ => none⟩ rfl
  · exact configurationMissing_amended.2
      ⟨none, some [[.str "svc"]], some [[.str "evt"]], some [[.str "stats"]],
       fun _ => none⟩ rfl

/-- Counterexample for **C10** as stated: with the property absent and
non-empty attendance sheets, the part_001 loader used by the id-matching and
stats operations does not fail — it returns the attendance data paired with a
silently empty directory. -/
theorem configurationMissing_counterexample :
    getDataFromSheets_match
        ⟨none, some [[.str "svcRow"]], some [[.str "evtRow"]],
         some [[.str "statsRow"]], fun _ => none⟩
      = ([], [[.str "evtRow"]], [[.str "svcRow"]]) := rfl
